import Mathlib

/-!
Verification development for the go-fcm client library.

The definitions below are a shallow embedding of the repository's Go code
(package fcm): the JSON data tree used for the custom data payload, the
flattening algorithm `flattenMap`, the versioned-payload translator
`convertToV1Message`, the response normalizers `parseStatusBody` /
`parseStatusBodyV1` and the post-transport part of `sendOnce`, the retry
classifier `IsTimeout`, and the message setters.

Modelling conventions:
* Go machine integers (`int`, `int64`) are modelled as `Int`.
* Go `map[string]T` values are modelled as association lists with unique
  keys; a map write is `mapSetS` (replace the binding in place when the key
  is present, append otherwise), and map iteration order is the list order.
* JSON numbers (which `encoding/json` decodes into `float64`) are modelled
  as integers: every number exercised by the repository and its spec is an
  integer value, and Go renders an integer-valued `float64` of magnitude
  below 1e21 as its plain decimal digits both under `fmt`'s `%v` verb and
  under `json.Marshal`, which `toString : Int → String` matches exactly.
* Fallible Go functions return an `Option`/a `Bool` error flag.
-/

/-- A dynamic JSON value as produced by `encoding/json` unmarshalling into
`interface{}`: strings, numbers, booleans, null, arrays
(`[]interface{}`) and string-keyed objects (`map[string]interface{}`). -/
inductive Jv where
  | str (s : String)
  | num (n : Int)
  | boolean (b : Bool)
  | null
  | arr (xs : List Jv)
  | obj (kvs : List (String × Jv))

/-- First-match lookup in an association list (Go map read; keys are
unique in every map this development builds). -/
def lookupKey {α : Type} (k : String) : List (String × α) → Option α
  | [] => Option.none
  | (k2, v) :: rest => if k2 = k then some v else lookupKey k rest

/-- Whether an association list binds the key. -/
def hasKeyS (k : String) : List (String × String) → Bool
  | [] => false
  | (k2, _) :: rest => if k2 = k then true else hasKeyS k rest

/-- Replace every binding of the key in place (Go maps hold at most
one). -/
def mapReplace (k v : String) : List (String × String) → List (String × String)
  | [] => []
  | (k2, v2) :: rest =>
      if k2 = k then (k, v) :: mapReplace k v rest
      else (k2, v2) :: mapReplace k v rest

/-- Go map write `m[k] = v`: replace the binding in place when present,
append a fresh binding otherwise. -/
def mapSetS (m : List (String × String)) (k v : String) : List (String × String) :=
  if hasKeyS k m then mapReplace k v m
  else m ++ [(k, v)]

/-- Lowercase hexadecimal digit, as in Go's `encoding/json` escape table. -/
def hexDigitChar (n : Nat) : Char :=
  if n < 10 then Char.ofNat (48 + n) else Char.ofNat (87 + n)

/-- Escape one character the way Go's `encoding/json` string encoder does
(HTML escaping on, its default): quote, backslash, the common control
characters, `<`, `>`, `&`, and U+2028/U+2029. -/
def escapeJsonChar (c : Char) : String :=
  if c = '"' then "\\\""
  else if c = '\\' then "\\\\"
  else if c = '\n' then "\\n"
  else if c = '\r' then "\\r"
  else if c = '\t' then "\\t"
  else if c = '<' then "\\u003c"
  else if c = '>' then "\\u003e"
  else if c = '&' then "\\u0026"
  else if c.toNat < 32 then
    String.mk ['\\', 'u', '0', '0', hexDigitChar (c.toNat / 16), hexDigitChar (c.toNat % 16)]
  else if c.toNat = 8232 then "\\u2028"
  else if c.toNat = 8233 then "\\u2029"
  else String.singleton c

/-- JSON string literal with Go's escaping. -/
def quoteJson (s : String) : String :=
  "\"" ++ String.join (s.toList.map escapeJsonChar) ++ "\""

/-- Lexicographic order on character lists; on valid Unicode this agrees
with Go's byte-wise string comparison, since UTF-8 preserves
code-point order. -/
def charListLt : List Char → List Char → Bool
  | [], [] => false
  | [], _ :: _ => true
  | _ :: _, [] => false
  | a :: as, b :: bs =>
      if a.toNat < b.toNat then true
      else if b.toNat < a.toNat then false
      else charListLt as bs

/-- Go's `<` on strings. -/
def strLt (a b : String) : Bool := charListLt a.toList b.toList

/-- Insert a key-tagged rendered entry into a key-sorted list
(Go renders maps with keys in sorted order). -/
def insertPair (p : String × String) : List (String × String) → List (String × String)
  | [] => [p]
  | q :: rest => if strLt p.1 q.1 then p :: q :: rest else q :: insertPair p rest

/-- Sort rendered map entries by key (insertion sort; both `json.Marshal`
and `fmt` print Go maps with their keys in increasing order). -/
def sortPairs : List (String × String) → List (String × String)
  | [] => []
  | p :: rest => insertPair p (sortPairs rest)

/-- Comma-join. -/
def joinComma (l : List String) : String := String.intercalate "," l

/-- Space-join. -/
def joinSpace (l : List String) : String := String.intercalate " " l

mutual

/-- Compact serialization of a JSON value, as Go's `json.Marshal` renders a
`map[string]interface{}` tree: object keys sorted, no whitespace, strings
escaped per `quoteJson`, numbers in decimal. -/
def stringifyJson : Jv → String
  | .str s => quoteJson s
  | .num n => toString n
  | .boolean b => if b then "true" else "false"
  | .null => "null"
  | .arr xs => "[" ++ joinComma (stringifyJsonList xs) ++ "]"
  | .obj kvs =>
      "\x7b" ++
        joinComma ((sortPairs (stringifyJsonEntries kvs)).map
          (fun p => quoteJson p.1 ++ ":" ++ p.2)) ++
      "\x7d"

/-- Serialize each array element. -/
def stringifyJsonList : List Jv → List String
  | [] => []
  | x :: xs => stringifyJson x :: stringifyJsonList xs

/-- Serialize each object entry's value, keeping its key. -/
def stringifyJsonEntries : List (String × Jv) → List (String × String)
  | [] => []
  | (k, v) :: rest => (k, stringifyJson v) :: stringifyJsonEntries rest

end

mutual

/-- Go's `fmt.Sprintf("%v", x)` on a dynamic JSON value: strings verbatim,
numbers in decimal, booleans as `true`/`false`, a nil interface as
`<nil>`, slices space-joined in brackets, maps as `map[k1:v1 k2:v2]` with
keys sorted. -/
def goFmtV : Jv → String
  | .str s => s
  | .num n => toString n
  | .boolean b => if b then "true" else "false"
  | .null => "<nil>"
  | .arr xs => "[" ++ joinSpace (goFmtVList xs) ++ "]"
  | .obj kvs =>
      "map[" ++
        joinSpace ((sortPairs (goFmtVEntries kvs)).map
          (fun p => p.1 ++ ":" ++ p.2)) ++
      "]"

/-- Render each slice element with `%v`. -/
def goFmtVList : List Jv → List String
  | [] => []
  | x :: xs => goFmtV x :: goFmtVList xs

/-- Render each map entry's value with `%v`, keeping its key. -/
def goFmtVEntries : List (String × Jv) → List (String × String)
  | [] => []
  | (k, v) :: rest => (k, goFmtV v) :: goFmtVEntries rest

end

/-- Build the full key for one entry: `key` at the top level, otherwise
`pre + "." + key` (the body of `flattenMap`'s key computation). -/
def joinKey (pre key : String) : String :=
  if pre = "" then key else pre ++ "." ++ key

mutual

/-- flattenMap from the source: walk the entries of a
`map[string]interface{}` and write the flattened string view of each into
the output map. -/
def flattenMap : String → List (String × Jv) → List (String × String) →
    List (String × String)
  | _, [], out => out
  | pre, (k, v) :: rest, out => flattenMap pre rest (flattenEntry (joinKey pre k) v out)

/-- One entry of `flattenMap`'s switch: strings are written verbatim,
numbers via `%v`, slice elements under `fullKey.<index>` rendered via
`%v`, nested objects recurse with the dotted prefix, and every other
dynamic value (bool, nil) is written via `%v`. -/
def flattenEntry (fullKey : String) : Jv → List (String × String) →
    List (String × String)
  | .str s, out => mapSetS out fullKey s
  | .num n, out => mapSetS out fullKey (toString n)
  | .arr xs, out => flattenArr fullKey 0 xs out
  | .obj kvs, out => flattenMap fullKey kvs out
  | .boolean b, out => mapSetS out fullKey (goFmtV (.boolean b))
  | .null, out => mapSetS out fullKey (goFmtV .null)

/-- The `[]interface{}` arm of `flattenMap`: element `i` is written under
`fullKey.<i>`, rendered with `%v` (elements are not recursed into). -/
def flattenArr (fullKey : String) : Nat → List Jv → List (String × String) →
    List (String × String)
  | _, [], out => out
  | i, e :: es, out =>
      flattenArr fullKey (i + 1) es (mapSetS out (fullKey ++ "." ++ toString i) (goFmtV e))

end

/-- The spec's flattening example input,
the tree of a data payload with a nested object and an array. -/
def exampleTree : List (String × Jv) :=
  [("a", Jv.obj [("b", Jv.num 1), ("c", Jv.arr [Jv.num 10, Jv.num 20])])]

/-- Flattening the example tree produces exactly the dotted and indexed
keys of the spec. -/
lemma flattenMap_exampleTree : flattenMap "" exampleTree []
    = [("a.b", "1"), ("a.c.0", "10"), ("a.c.1", "20")] := by
  simp only [exampleTree, flattenMap, flattenEntry, flattenArr, mapSetS, hasKeyS, joinKey, goFmtV]
  decide

/-- The compact JSON serialization of the example tree. -/
lemma stringifyJson_exampleTree : stringifyJson (Jv.obj exampleTree)
    = "\x7b\"a\":\x7b\"b\":1,\"c\":[10,20]\x7d\x7d" := by
  simp only [exampleTree, stringifyJson, stringifyJsonEntries, stringifyJsonList, sortPairs,
    insertPair, quoteJson, escapeJsonChar, joinComma]
  decide

/-- MAX_TTL, the maximum time-to-live in seconds (four weeks). -/
def MAX_TTL : Int := 2419200

/-- Priority_HIGH notification priority. -/
def Priority_HIGH : String := "high"

/-- Priority_NORMAL notification priority. -/
def Priority_NORMAL : String := "normal"

/-- error_key, the key under which per-target errors are reported. -/
def error_key : String := "error"

/-- NotificationPayload: the fixed-shape display payload. -/
structure NotificationPayload where
  title : String := ""
  body : String := ""
  icon : String := ""
  sound : String := ""
  badge : String := ""
  tag : String := ""
  color : String := ""
  clickAction : String := ""
  bodyLocKey : String := ""
  bodyLocArgs : String := ""
  titleLocKey : String := ""
  titleLocArgs : String := ""
  androidChannelID : String := ""

/-- The dynamic value stored in `FcmMsg.Data` (a Go `interface{}`): it may
be a nil interface, a `map[string]interface{}` (the only shape
`convertToV1Message` accepts), a typed `map[string]string` (as stored by
`NewFcmTopicMsg`), or any other dynamic type such as a slice. -/
inductive GoData where
  | nilData
  | jsonMap (kvs : List (String × Jv))
  | strMap (kvs : List (String × String))
  | otherData

/-- Whether the dynamic data value is a `map[string]interface{}` (the type
assertion in `convertToV1Message`). -/
def GoData.isJsonMap : GoData → Bool
  | .jsonMap _ => true
  | _ => false

/-- FcmMsg, the message under construction. -/
structure FcmMsg where
  data : GoData := .nilData
  To : String := ""
  registrationIds : List String := []
  collapseKey : String := ""
  priority : String := ""
  notification : NotificationPayload := {}
  contentAvailable : Bool := false
  delayWhileIdle : Bool := false
  timeToLive : Int := 0
  restrictedPackageName : String := ""
  dryRun : Bool := false
  condition : String := ""

/-- FcmResponseStatus, the unified outcome of one send; a fresh value has
Go's zero value in every field. -/
structure FcmResponseStatus where
  ok : Bool := false
  statusCode : Int := 0
  multicastId : Int := 0
  success : Int := 0
  fail : Int := 0
  canonicalIds : Int := 0
  results : List (List (String × String)) := []
  msgId : Int := 0
  err : String := ""
  retryAfter : String := ""

/-- The zero FcmResponseStatus allocated by `new(FcmResponseStatus)`. -/
def emptyStatus : FcmResponseStatus := {}

/-- The error object of a versioned-API response body. -/
structure FcmV1Error where
  code : Int := 0
  message : String := ""
  status : String := ""

/-- FcmV1Response: the parsed body of a versioned-API response. -/
structure FcmV1Response where
  name : String := ""
  error : FcmV1Error := {}

/-- The parsed body of a legacy-API response: the JSON keys
`multicast_id`, `success`, `failure`, `canonical_ids`, `results`,
`message_id`, `error`; a key absent from the body leaves Go's zero
value. -/
structure LegacyBody where
  multicastId : Int := 0
  success : Int := 0
  fail : Int := 0
  canonicalIds : Int := 0
  results : List (List (String × String)) := []
  msgId : Int := 0
  err : String := ""

/-- safeString from the source: the identity on values that are strings
(every field it is applied to is a string). -/
def safeString (s : String) : String := s

/-- Go's `strconv.Atoi`: an optional sign followed by at least one decimal
digit, the value within the 64-bit int range; `Option.none` models the
error return. -/
def goAtoi (s : String) : Option Int :=
  let digitsVal : List Char → Option Nat := fun cs =>
    if cs = [] then Option.none
    else if cs.all (fun c => c.isDigit) then
      some (cs.foldl (fun a c => a * 10 + (c.toNat - 48)) 0)
    else Option.none
  let signed : Option Int :=
    match s.toList with
    | '+' :: rest => (digitsVal rest).map (fun n => (n : Int))
    | '-' :: rest => (digitsVal rest).map (fun n => -(n : Int))
    | cs => (digitsVal cs).map (fun n => (n : Int))
  match signed with
  | some v =>
      if -9223372036854775808 ≤ v ∧ v ≤ 9223372036854775807 then some v else Option.none
  | Option.none => Option.none

/-- The versioned message built by `convertToV1Message`, holding exactly
the fields the source populates in its nested `map[string]interface{}`
literal. -/
structure V1AndroidNotification where
  title : String
  body : String
  icon : String
  color : String
  sound : String
  notificationCount : Int
  tag : String
  clickAction : String
  bodyLocKey : String
  bodyLocArgs : String
  titleLocKey : String
  titleLocArgs : String
  channelId : String

/-- The whole versioned payload (`message.*`) built by
`convertToV1Message`. -/
structure V1Built where
  token : String
  notifTitle : String
  notifBody : String
  data : List (String × String)
  androidCollapseKey : String
  androidPriority : String
  androidTtl : String
  androidRestrictedPackageName : String
  androidData : List (String × String)
  androidNotification : V1AndroidNotification

/-- convertToV1Message from the source: type-assert the dynamic data to a
`map[string]interface{}` (an empty map on failure), flatten it, inject the
compact JSON serialization of the original map under the reserved key
`"data"`, override the title with a non-empty string-valued `alert` data
field, parse `notification_count` from the badge string (0 on failure),
and assemble the nested versioned payload. The `json.Marshal` fallback to
`"{}"` in the source is unreachable here because `stringifyJson` is
total. -/
def convertToV1Message (msg : FcmMsg) : V1Built :=
  let dataKvs : List (String × Jv) :=
    match msg.data with
    | .jsonMap kvs => kvs
    | _ => []
  let v1Data0 := flattenMap "" dataKvs []
  let stringifiedData := stringifyJson (Jv.obj dataKvs)
  let v1Data := mapSetS v1Data0 "data" stringifiedData
  let notification := msg.notification
  let title0 := safeString notification.title
  let body := safeString notification.body
  let title :=
    match lookupKey "alert" dataKvs with
    | some (Jv.str alert) => if alert ≠ "" then alert else title0
    | _ => title0
  let notification_badge := safeString notification.badge
  let notification_count : Int :=
    if notification_badge ≠ "" then
      match goAtoi notification_badge with
      | some n => n
      | Option.none => 0
    else 0
  { token := msg.To
    notifTitle := title
    notifBody := body
    data := v1Data
    androidCollapseKey := safeString msg.collapseKey
    androidPriority := safeString msg.priority
    androidTtl := toString msg.timeToLive ++ "s"
    androidRestrictedPackageName := safeString msg.restrictedPackageName
    androidData := v1Data
    androidNotification :=
      { title := title
        body := body
        icon := safeString notification.icon
        color := safeString notification.color
        sound := safeString notification.sound
        notificationCount := notification_count
        tag := safeString notification.tag
        clickAction := safeString notification.clickAction
        bodyLocKey := safeString notification.bodyLocKey
        bodyLocArgs := safeString notification.bodyLocArgs
        titleLocKey := safeString notification.titleLocKey
        titleLocArgs := safeString notification.titleLocArgs
        channelId := safeString notification.androidChannelID } }

/-- parseStatusBody from the source: unmarshal a parsed legacy body into
the response status (the legacy JSON keys map one-to-one onto the tagged
fields; `Ok`, `StatusCode` and `RetryAfter` carry no matching tag and are
untouched). -/
def parseStatusBody (s : FcmResponseStatus) (b : LegacyBody) : FcmResponseStatus :=
  { s with
    multicastId := b.multicastId
    success := b.success
    fail := b.fail
    canonicalIds := b.canonicalIds
    results := b.results
    msgId := b.msgId
    err := b.err }

/-- parseStatusBodyV1 from the source: normalize a parsed versioned body
to the legacy shape. Zero the legacy bookkeeping fields, then on a
non-empty `error.message` record the failure (`StatusCode` is set to the
error's own code here); otherwise record one success with the sentinel
message id 1 and `StatusCode` 200. -/
def parseStatusBodyV1 (s : FcmResponseStatus) (v : FcmV1Response) : FcmResponseStatus :=
  let s := { s with
    multicastId := 0
    success := 0
    fail := 0
    canonicalIds := 0
    results := [] }
  if v.error.message ≠ "" then
    { s with
      fail := 1
      results := s.results ++ [[("error", v.error.status)]]
      err := v.error.message
      statusCode := v.error.code
      ok := false }
  else
    { s with
      success := 1
      results := s.results ++ [[("message_id", v.name)]]
      msgId := 1
      ok := true
      statusCode := 200 }

/-- The post-transport tail of `sendOnce` on the legacy path
(`UseV1Api = false`), given the transport status code, the `Retry-After`
header, and the parse result of the body (`Option.none` models a body
`json.Unmarshal` rejects). Returns the response status and whether a
non-nil error was returned with it. -/
def sendOnceLegacy (httpStatus : Int) (retryAfter : String)
    (parsed : Option LegacyBody) : FcmResponseStatus × Bool :=
  let s0 : FcmResponseStatus := { statusCode := httpStatus, retryAfter := retryAfter }
  if httpStatus ≠ 200 then (s0, false)
  else
    match parsed with
    | Option.none => (s0, true)
    | some b => ({ parseStatusBody s0 b with ok := true }, false)

/-- The post-transport tail of `sendOnce` on the versioned path
(`UseV1Api = true`): on a non-200 transport status the body is parsed and
`StatusCode` is then forced to 200 ("because the response in the legacy
API is always 200"); on a 200 transport status the body is parsed and
`Ok` is then set to true. Returns the response status and whether a
non-nil error was returned with it. -/
def sendOnceV1 (httpStatus : Int) (retryAfter : String)
    (parsed : Option FcmV1Response) : FcmResponseStatus × Bool :=
  let s0 : FcmResponseStatus := { statusCode := httpStatus, retryAfter := retryAfter }
  if httpStatus ≠ 200 then
    match parsed with
    | Option.none => ({ s0 with statusCode := 200 }, true)
    | some v => ({ parseStatusBodyV1 s0 v with statusCode := 200 }, false)
  else
    match parsed with
    | Option.none => (s0, true)
    | some v => ({ parseStatusBodyV1 s0 v with ok := true }, false)

/-- retreyableErrors from the source: the fixed allow-list of transient
error names (a map read returning the zero value `false` for any other
key). -/
def retreyableErrors (v : String) : Bool :=
  if v = "Unavailable" then true
  else if v = "InternalServerError" then true
  else false

/-- The inner loop of `IsTimeout` over one result map's entries. -/
def anyRetryableEntry : List (String × String) → Bool
  | [] => false
  | (k, v) :: rest =>
      if k = error_key ∧ retreyableErrors v = true then true
      else anyRetryableEntry rest

/-- The outer loop of `IsTimeout` over the results list. -/
def anyRetryableResult : List (List (String × String)) → Bool
  | [] => false
  | m :: rest => if anyRetryableEntry m then true else anyRetryableResult rest

/-- IsTimeout from the source: a response is retryable when the status
code is at least 500, or when it is exactly 200 and some result map has an
`"error"` entry whose value is on the transient allow-list. -/
def IsTimeout (s : FcmResponseStatus) : Bool :=
  if 500 ≤ s.statusCode then true
  else if s.statusCode = 200 then anyRetryableResult s.results
  else false

/-- NewFcmTopicMsg from the source: set the target and store the typed
`map[string]string` payload in the dynamic data field. -/
def NewFcmTopicMsg (msg : FcmMsg) (toArg : String) (body : List (String × String)) : FcmMsg :=
  { msg with To := toArg, data := GoData.strMap body }

/-- NewFcmMsgTo from the source: set the target and the dynamic data
payload. -/
def NewFcmMsgTo (msg : FcmMsg) (toArg : String) (body : GoData) : FcmMsg :=
  { msg with To := toArg, data := body }

/-- SetMsgData from the source. -/
def SetMsgData (msg : FcmMsg) (body : GoData) : FcmMsg :=
  { msg with data := body }

/-- SetPriority from the source: store `Priority_HIGH` when the argument
equals it, `Priority_NORMAL` otherwise. -/
def SetPriority (msg : FcmMsg) (p : String) : FcmMsg :=
  if p = Priority_HIGH then { msg with priority := Priority_HIGH }
  else { msg with priority := Priority_NORMAL }

/-- SetCollapseKey from the source. -/
def SetCollapseKey (msg : FcmMsg) (val : String) : FcmMsg :=
  { msg with collapseKey := val }

/-- SetNotificationPayload from the source. -/
def SetNotificationPayload (msg : FcmMsg) (payload : NotificationPayload) : FcmMsg :=
  { msg with notification := payload }

/-- SetContentAvailable from the source. -/
def SetContentAvailable (msg : FcmMsg) (isContentAvailable : Bool) : FcmMsg :=
  { msg with contentAvailable := isContentAvailable }

/-- SetDelayWhileIdle from the source. -/
def SetDelayWhileIdle (msg : FcmMsg) (isDelayWhileIdle : Bool) : FcmMsg :=
  { msg with delayWhileIdle := isDelayWhileIdle }

/-- SetTimeToLive from the source: clamp to MAX_TTL at set time. -/
def SetTimeToLive (msg : FcmMsg) (ttl : Int) : FcmMsg :=
  if ttl > MAX_TTL then { msg with timeToLive := MAX_TTL }
  else { msg with timeToLive := ttl }

/-- SetRestrictedPackageName from the source. -/
def SetRestrictedPackageName (msg : FcmMsg) (pkg : String) : FcmMsg :=
  { msg with restrictedPackageName := pkg }

/-- SetDryRun from the source. -/
def SetDryRun (msg : FcmMsg) (drun : Bool) : FcmMsg :=
  { msg with dryRun := drun }

/-- SetCondition from the source. -/
def SetCondition (msg : FcmMsg) (condition : String) : FcmMsg :=
  { msg with condition := condition }

/-- The allow-list test holds exactly for the two transient error names. -/
lemma retreyableErrors_iff (v : String) :
    retreyableErrors v = true ↔ v = "Unavailable" ∨ v = "InternalServerError" := by
  unfold retreyableErrors
  split
  · simp_all
  · split <;> simp_all

/-- The inner `IsTimeout` loop finds an allow-listed error entry exactly
when one exists. -/
lemma anyRetryableEntry_iff (l : List (String × String)) :
    anyRetryableEntry l = true ↔
      ∃ kv ∈ l, kv.1 = error_key ∧ (kv.2 = "Unavailable" ∨ kv.2 = "InternalServerError") := by
  induction l with
  | nil => simp [anyRetryableEntry]
  | cons p rest ih =>
    obtain ⟨k, v⟩ := p
    unfold anyRetryableEntry
    split
    · next h =>
      simp only [true_iff]
      exact ⟨(k, v), by simp, h.1, (retreyableErrors_iff v).mp h.2⟩
    · next h =>
      rw [ih]
      constructor
      · rintro ⟨kv, hkv, h1, h2⟩
        exact ⟨kv, by simp [hkv], h1, h2⟩
      · rintro ⟨kv, hkv, h1, h2⟩
        rcases List.mem_cons.mp hkv with heq | hmem
        · subst heq
          exact absurd ⟨h1, (retreyableErrors_iff v).mpr h2⟩ h
        · exact ⟨kv, hmem, h1, h2⟩

/-- The outer `IsTimeout` loop finds a matching result map exactly when
one exists. -/
lemma anyRetryableResult_iff (rs : List (List (String × String))) :
    anyRetryableResult rs = true ↔ ∃ m ∈ rs, anyRetryableEntry m = true := by
  induction rs with
  | nil => simp [anyRetryableResult]
  | cons m rest ih =>
    unfold anyRetryableResult
    split
    · next h => simp only [true_iff]; exact ⟨m, by simp, h⟩
    · next h =>
      rw [ih]
      constructor
      · rintro ⟨m2, hm, h2⟩
        exact ⟨m2, by simp [hm], h2⟩
      · rintro ⟨m2, hm, h2⟩
        rcases List.mem_cons.mp hm with heq | hmem
        · subst heq; simp_all
        · exact ⟨m2, hmem, h2⟩

/-- C4: `IsTimeout` returns true exactly when the status code is at least
500, or is exactly 200 and some results entry has key `"error"` bound to
`"Unavailable"` or `"InternalServerError"`; in particular it is true at
status 503, true at status 200 with an `"Unavailable"` error result, and
false at status 200 with an `"InvalidRegistration"` error result. -/
theorem c4_is_timeout_characterization :
    (∀ s : FcmResponseStatus, IsTimeout s = true ↔
      (500 ≤ s.statusCode ∨ (s.statusCode = 200 ∧
        ∃ m ∈ s.results, ∃ kv ∈ m, kv.1 = "error" ∧
          (kv.2 = "Unavailable" ∨ kv.2 = "InternalServerError"))))
    ∧ IsTimeout { emptyStatus with statusCode := 503 } = true
    ∧ IsTimeout { emptyStatus with statusCode := 200, results := [[("error", "Unavailable")]] } = true
    ∧ IsTimeout { emptyStatus with statusCode := 200, results := [[("error", "InvalidRegistration")]] } = false := by
  refine ⟨?_, rfl, rfl, rfl⟩
  intro s
  unfold IsTimeout
  split
  · next h => simp only [true_iff]; exact Or.inl h
  · next h =>
    split
    · next h2 =>
      rw [anyRetryableResult_iff]
      constructor
      · rintro ⟨m, hm, hentry⟩
        obtain ⟨kv, hkv, h1, h2v⟩ := (anyRetryableEntry_iff m).mp hentry
        exact Or.inr ⟨h2, m, hm, kv, hkv, h1, h2v⟩
      · rintro (h500 | ⟨_, m, hm, kv, hkv, h1, h2v⟩)
        · exact absurd h500 h
        · exact ⟨m, hm, (anyRetryableEntry_iff m).mpr ⟨kv, hkv, h1, h2v⟩⟩
    · next h2 =>
      simp only [Bool.false_eq_true, false_iff]
      rintro (h500 | ⟨h200, _⟩)
      · exact h h500
      · exact h2 h200

/-- C5: `SetTimeToLive` stores `MAX_TTL` when the argument exceeds it and
the argument unchanged otherwise (negative values included), and the
versioned payload renders the stored value as-is at send time (`"<n>s"`,
with no further clamping). -/
theorem c5_ttl_clamp :
    (∀ (msg : FcmMsg) (ttl : Int),
      (SetTimeToLive msg ttl).timeToLive = if ttl > MAX_TTL then MAX_TTL else ttl)
    ∧ (∀ msg : FcmMsg,
      (convertToV1Message msg).androidTtl = toString msg.timeToLive ++ "s") := by
  constructor
  · intro msg ttl
    unfold SetTimeToLive
    split <;> simp_all
  · intro msg
    rfl

/-- C8: on the legacy path, a non-200 transport status skips body parsing
entirely and returns a status with only the status code and the
`Retry-After` header populated, `ok = false`, and a nil error. -/
theorem c8_legacy_non200 (httpStatus : Int) (retryAfter : String)
    (parsed : Option LegacyBody) (h : httpStatus ≠ 200) :
    sendOnceLegacy httpStatus retryAfter parsed =
      ({ emptyStatus with statusCode := httpStatus, retryAfter := retryAfter }, false) := by
  unfold sendOnceLegacy
  simp [h, emptyStatus]

/-- Witness for C8 at transport status 500 with a parseable body present:
the body is ignored and the minimal not-ok status is returned. -/
theorem c8_witness :
    (500 : Int) ≠ 200 ∧
    sendOnceLegacy 500 "30s" (some ({} : LegacyBody)) =
      ({ emptyStatus with statusCode := 500, retryAfter := "30s" }, false) :=
  ⟨by decide, c8_legacy_non200 500 "30s" (some ({} : LegacyBody)) (by decide)⟩

/-- C3: normalizing a versioned body with an empty `error.message` yields
one success with `results = [[("message_id", name)]]`, the sentinel
numeric id 1, `ok = true` and status code 200. -/
theorem c3_v1_success_normalization (s : FcmResponseStatus) (v : FcmV1Response)
    (h : v.error.message = "") :
    (parseStatusBodyV1 s v).success = 1 ∧
    (parseStatusBodyV1 s v).results = [[("message_id", v.name)]] ∧
    (parseStatusBodyV1 s v).msgId = 1 ∧
    (parseStatusBodyV1 s v).ok = true ∧
    (parseStatusBodyV1 s v).statusCode = 200 := by
  unfold parseStatusBodyV1
  simp [h]

/-- Witness for C3 on the spec's example body
`(name = "projects/p/messages/123", no error)`. -/
theorem c3_witness :
    ({ name := "projects/p/messages/123" } : FcmV1Response).error.message = "" ∧
    (parseStatusBodyV1 emptyStatus { name := "projects/p/messages/123" }).ok = true ∧
    (parseStatusBodyV1 emptyStatus { name := "projects/p/messages/123" }).results =
      [[("message_id", "projects/p/messages/123")]] ∧
    (parseStatusBodyV1 emptyStatus { name := "projects/p/messages/123" }).statusCode = 200 :=
  ⟨rfl,
   (c3_v1_success_normalization emptyStatus { name := "projects/p/messages/123" } rfl).2.2.2.1,
   (c3_v1_success_normalization emptyStatus { name := "projects/p/messages/123" } rfl).2.1,
   (c3_v1_success_normalization emptyStatus { name := "projects/p/messages/123" } rfl).2.2.2.2⟩

/-- The spec's example versioned error body: a 404 "NOT_FOUND" with a
non-empty message. -/
def v1NotFound : FcmV1Response :=
  { name := ""
    error := { code := 404, message := "Requested entity was not found.", status := "NOT_FOUND" } }

/-- C1 counterexample: when the true transport status is 200, normalizing
a versioned error body does not renormalize the status code to 200 (it
keeps the body's error code, here 404) and `sendOnce` then forces
`ok = true`, contradicting the claimed `httpStatusCode = 200` and
`ok = false` for every transport status. -/
theorem c1_counterexample :
    v1NotFound.error.message ≠ "" ∧
    (sendOnceV1 200 "" (some v1NotFound)).1.ok = true ∧
    (sendOnceV1 200 "" (some v1NotFound)).1.statusCode = 404 := by
  refine ⟨by decide, rfl, rfl⟩

/-- C1 amended: for every versioned response with a non-empty
`error.message` received with a transport status other than 200, the
normalized status has `fail = 1`, `results = [[("error", error.status)]]`,
`err = error.message`, the status code renormalized to 200, `ok = false`,
and no error is returned. (At a true transport status of exactly 200 the
code instead keeps the body's `error.code` as the status code and
overrides `ok` to true.) -/
theorem c1_amended_v1_error_normalization (httpStatus : Int) (retryAfter : String)
    (v : FcmV1Response) (hs : httpStatus ≠ 200) (hm : v.error.message ≠ "") :
    sendOnceV1 httpStatus retryAfter (some v) =
      ({ emptyStatus with
          statusCode := 200
          retryAfter := retryAfter
          fail := 1
          results := [[("error", v.error.status)]]
          err := v.error.message
          ok := false }, false) := by
  unfold sendOnceV1 parseStatusBodyV1
  simp [hs, hm, emptyStatus]

/-- Witness for the amended C1 on the spec's 404 example received with
transport status 404. -/
theorem c1_witness :
    (404 : Int) ≠ 200 ∧ v1NotFound.error.message ≠ "" ∧
    sendOnceV1 404 "" (some v1NotFound) =
      ({ emptyStatus with
          statusCode := 200
          fail := 1
          results := [[("error", "NOT_FOUND")]]
          err := "Requested entity was not found." }, false) := by
  refine ⟨by decide, by decide, ?_⟩
  have h := c1_amended_v1_error_normalization 404 "" v1NotFound (by decide) (by decide)
  simpa [v1NotFound] using h

/-- A legacy status-200 body reporting one per-target failure. -/
def legacyFailureBody : LegacyBody :=
  { fail := 1
    results := [[("error", "InvalidRegistration")]] }

/-- C6 counterexample: a legacy status-200 response whose body reports a
per-target failure (failure count 1, an `"error"` results entry) still
comes back with `ok = true`. -/
theorem c6_counterexample :
    (sendOnceLegacy 200 "" (some legacyFailureBody)).1.ok = true ∧
    (sendOnceLegacy 200 "" (some legacyFailureBody)).1.fail = 1 ∧
    (sendOnceLegacy 200 "" (some legacyFailureBody)).1.results =
      [[("error", "InvalidRegistration")]] := by
  refine ⟨rfl, rfl, rfl⟩

/-- C6 amended: `ok = true` holds exactly when the call transported and
its body parsed — on the legacy path, for every parsed status-200
response, including bodies reporting per-target failures (those surface
only through the failure count and the results list); on the versioned
path, for every parsed body when the transport status is 200, and for
bodies with an empty `error.message` otherwise. -/
theorem c6_amended_ok_characterization :
    (∀ (hs : Int) (ra : String) (parsed : Option LegacyBody),
      ((sendOnceLegacy hs ra parsed).1.ok = true ↔ (hs = 200 ∧ parsed.isSome = true)))
    ∧ (∀ (hs : Int) (ra : String) (parsed : Option FcmV1Response),
      ((sendOnceV1 hs ra parsed).1.ok = true ↔
        (∃ v, parsed = some v ∧ (hs = 200 ∨ v.error.message = "")))) := by
  constructor
  · intro hs ra parsed
    unfold sendOnceLegacy
    by_cases h : hs = 200
    · subst h
      cases parsed with
      | none => simp
      | some b => simp [parseStatusBody]
    · simp [h]
  · intro hs ra parsed
    unfold sendOnceV1 parseStatusBodyV1
    by_cases h : hs = 200
    · subst h
      cases parsed with
      | none => simp
      | some v => simp
    · cases parsed with
      | none => simp [h]
      | some v =>
        by_cases hm : v.error.message = ""
        · simp [h, hm]
        · simp [h, hm]

/-- The empty message built by the client factory. -/
def emptyMsg : FcmMsg := {}

/-- C7 counterexample: `SetPriority` does not store its argument
unchanged; any value other than "high" is normalized to "normal". -/
theorem c7_counterexample :
    (SetPriority emptyMsg "urgent").priority = "normal" ∧
    ("normal" : String) ≠ "urgent" :=
  ⟨rfl, by decide⟩

/-- C7 amended: every setter rewrites exactly its one field and leaves
the rest of the message unchanged; the stored value is the argument
itself except for the documented TTL clamp and for `SetPriority`, which
normalizes its argument to `Priority_HIGH` when equal to it and
`Priority_NORMAL` otherwise. -/
theorem c7_amended_setters (msg : FcmMsg) (p v cond pkg : String) (b1 b2 b3 : Bool)
    (ttl : Int) (payload : NotificationPayload) (d : GoData) :
    SetPriority msg p =
      { msg with priority := if p = Priority_HIGH then Priority_HIGH else Priority_NORMAL }
    ∧ SetCollapseKey msg v = { msg with collapseKey := v }
    ∧ SetNotificationPayload msg payload = { msg with notification := payload }
    ∧ SetContentAvailable msg b1 = { msg with contentAvailable := b1 }
    ∧ SetDelayWhileIdle msg b2 = { msg with delayWhileIdle := b2 }
    ∧ SetTimeToLive msg ttl =
        { msg with timeToLive := if ttl > MAX_TTL then MAX_TTL else ttl }
    ∧ SetRestrictedPackageName msg pkg = { msg with restrictedPackageName := pkg }
    ∧ SetDryRun msg b3 = { msg with dryRun := b3 }
    ∧ SetCondition msg cond = { msg with condition := cond }
    ∧ SetMsgData msg d = { msg with data := d } := by
  refine ⟨?_, rfl, rfl, rfl, rfl, ?_, rfl, rfl, rfl, rfl⟩
  · unfold SetPriority
    split <;> simp_all
  · unfold SetTimeToLive
    split <;> simp_all

/-- After a `mapSetS` write, reading the written key gives the written
value: the replace branch. -/
lemma lookupKey_map_replace (k v : String) :
    ∀ m : List (String × String), hasKeyS k m = true →
      lookupKey k (mapReplace k v m) = some v := by
  intro m
  induction m with
  | nil => simp [hasKeyS]
  | cons p rest ih =>
    intro h
    obtain ⟨k2, v2⟩ := p
    by_cases hk : k2 = k
    · simp [mapReplace, lookupKey, hk]
    · unfold hasKeyS at h
      simp only [hk, if_false] at h
      simp only [mapReplace, hk, if_false]
      simpa [lookupKey, hk] using ih h

/-- After a `mapSetS` write, reading the written key gives the written
value: the append branch. -/
lemma lookupKey_append_single (k v : String) :
    ∀ m : List (String × String), hasKeyS k m = false →
      lookupKey k (m ++ [(k, v)]) = some v := by
  intro m
  induction m with
  | nil => simp [lookupKey]
  | cons p rest ih =>
    intro h
    obtain ⟨k2, v2⟩ := p
    unfold hasKeyS at h
    by_cases hk : k2 = k
    · simp [hk] at h
    · simp only [hk, if_false] at h
      simpa [lookupKey, hk] using ih h

/-- A Go map read after a Go map write of the same key returns the
written value. -/
lemma lookupKey_mapSetS (m : List (String × String)) (k v : String) :
    lookupKey k (mapSetS m k v) = some v := by
  unfold mapSetS
  split
  · next h => exact lookupKey_map_replace k v m h
  · next h => exact lookupKey_append_single k v m (by simpa using h)

/-- The message whose data payload is the spec's flattening example. -/
def exampleMsg : FcmMsg := { data := GoData.jsonMap exampleTree }

/-- The compact JSON text of the example tree. -/
def exampleJsonString : String := "\x7b\"a\":\x7b\"b\":1,\"c\":[10,20]\x7d\x7d"

/-- C2: the versioned payload attaches, as both `message.data` and
`message.android.data`, the flattening of the custom data tree with the
compact JSON serialization of the whole tree written under the reserved
key `"data"`; nested objects recurse under the `.`-joined dotted key,
array element `i` is written under `<parent>.<i>`, and non-string scalars
are rendered via Go's default formatting; on the spec's example the
flattened map is exactly
`[("a.b","1"), ("a.c.0","10"), ("a.c.1","20")]` plus the reserved
`"data"` entry. -/
theorem c2_flatten_and_inject :
    (∀ (msg : FcmMsg) (kvs : List (String × Jv)), msg.data = GoData.jsonMap kvs →
      (convertToV1Message msg).data =
        mapSetS (flattenMap "" kvs []) "data" (stringifyJson (Jv.obj kvs))
      ∧ (convertToV1Message msg).androidData = (convertToV1Message msg).data
      ∧ lookupKey "data" (convertToV1Message msg).data = some (stringifyJson (Jv.obj kvs)))
    ∧ (∀ (fullKey : String) (kvs : List (String × Jv)) (out : List (String × String)),
        flattenEntry fullKey (Jv.obj kvs) out = flattenMap fullKey kvs out)
    ∧ (∀ pre k : String, pre ≠ "" → joinKey pre k = pre ++ "." ++ k)
    ∧ (∀ (fullKey : String) (i : Nat) (e : Jv) (es : List Jv) (out : List (String × String)),
        flattenArr fullKey i (e :: es) out =
          flattenArr fullKey (i + 1) es (mapSetS out (fullKey ++ "." ++ toString i) (goFmtV e)))
    ∧ (∀ (fullKey : String) (n : Int) (out : List (String × String)),
        flattenEntry fullKey (Jv.num n) out = mapSetS out fullKey (toString n))
    ∧ (∀ (fullKey : String) (b : Bool) (out : List (String × String)),
        flattenEntry fullKey (Jv.boolean b) out = mapSetS out fullKey (goFmtV (Jv.boolean b)))
    ∧ flattenMap "" exampleTree [] = [("a.b", "1"), ("a.c.0", "10"), ("a.c.1", "20")]
    ∧ (convertToV1Message exampleMsg).data =
        [("a.b", "1"), ("a.c.0", "10"), ("a.c.1", "20"), ("data", exampleJsonString)]
    ∧ (convertToV1Message exampleMsg).androidData =
        [("a.b", "1"), ("a.c.0", "10"), ("a.c.1", "20"), ("data", exampleJsonString)] := by
  have hconv : ∀ (msg : FcmMsg) (kvs : List (String × Jv)), msg.data = GoData.jsonMap kvs →
      (convertToV1Message msg).data =
        mapSetS (flattenMap "" kvs []) "data" (stringifyJson (Jv.obj kvs))
      ∧ (convertToV1Message msg).androidData = (convertToV1Message msg).data
      ∧ lookupKey "data" (convertToV1Message msg).data = some (stringifyJson (Jv.obj kvs)) := by
    intro msg kvs h
    unfold convertToV1Message
    rw [h]
    exact ⟨rfl, rfl, lookupKey_mapSetS _ _ _⟩
  have hexample : (convertToV1Message exampleMsg).data =
      [("a.b", "1"), ("a.c.0", "10"), ("a.c.1", "20"), ("data", exampleJsonString)] := by
    rw [(hconv exampleMsg exampleTree rfl).1, flattenMap_exampleTree, stringifyJson_exampleTree]
    rfl
  refine ⟨hconv, fun _ _ _ => rfl, ?_, fun _ _ _ _ _ => rfl, fun _ _ _ => rfl, fun _ _ _ => rfl,
    flattenMap_exampleTree, hexample, ?_⟩
  · intro pre k h
    unfold joinKey
    simp [h]
  · rw [(hconv exampleMsg exampleTree rfl).2.1]
    exact hexample

/-- Witness for C2 at the spec's example input: the translated payload
carries the flattened entries and the reserved serialized copy. -/
theorem c2_witness :
    exampleMsg.data = GoData.jsonMap exampleTree ∧
    (convertToV1Message exampleMsg).data =
      [("a.b", "1"), ("a.c.0", "10"), ("a.c.1", "20"), ("data", exampleJsonString)] ∧
    lookupKey "data" (convertToV1Message exampleMsg).data = some exampleJsonString := by
  refine ⟨rfl, c2_flatten_and_inject.2.2.2.2.2.2.2.1, ?_⟩
  have h := (c2_flatten_and_inject.1 exampleMsg exampleTree rfl).2.2
  rwa [stringifyJson_exampleTree] at h

/-- A message whose data payload carries an empty-string `alert` field
and whose notification payload has a title of its own. -/
def alertEmptyMsg : FcmMsg :=
  { data := GoData.jsonMap [("alert", Jv.str "")]
    notification := { title := "T" } }

/-- C9 counterexample: a data payload containing the string field
`alert = ""` does not override the notification title — the code requires
the alert to be non-empty, so the title stays the notification's own. -/
theorem c9_counterexample :
    (convertToV1Message alertEmptyMsg).notifTitle = "T" ∧
    (convertToV1Message alertEmptyMsg).androidNotification.title = "T" ∧
    ("T" : String) ≠ "" :=
  ⟨rfl, rfl, by decide⟩

/-- C9 amended: when the data payload contains a non-empty string field
named `alert`, its value becomes the title of both `message.notification`
and `message.android.notification`; the body and the remaining Android
display fields are sourced from the notification payload (with
`notification_count` parsed from the badge string, 0 on failure). -/
theorem c9_amended_alert_override (msg : FcmMsg) (kvs : List (String × Jv)) (alert : String)
    (hd : msg.data = GoData.jsonMap kvs)
    (ha : lookupKey "alert" kvs = some (Jv.str alert)) (hne : alert ≠ "") :
    (convertToV1Message msg).notifTitle = alert
    ∧ (convertToV1Message msg).androidNotification.title = alert
    ∧ (convertToV1Message msg).notifBody = msg.notification.body
    ∧ (convertToV1Message msg).androidNotification.body = msg.notification.body
    ∧ (convertToV1Message msg).androidNotification.icon = msg.notification.icon
    ∧ (convertToV1Message msg).androidNotification.color = msg.notification.color
    ∧ (convertToV1Message msg).androidNotification.sound = msg.notification.sound
    ∧ (convertToV1Message msg).androidNotification.tag = msg.notification.tag
    ∧ (convertToV1Message msg).androidNotification.clickAction = msg.notification.clickAction
    ∧ (convertToV1Message msg).androidNotification.bodyLocKey = msg.notification.bodyLocKey
    ∧ (convertToV1Message msg).androidNotification.bodyLocArgs = msg.notification.bodyLocArgs
    ∧ (convertToV1Message msg).androidNotification.titleLocKey = msg.notification.titleLocKey
    ∧ (convertToV1Message msg).androidNotification.titleLocArgs = msg.notification.titleLocArgs
    ∧ (convertToV1Message msg).androidNotification.channelId = msg.notification.androidChannelID
    ∧ (convertToV1Message msg).androidNotification.notificationCount =
        (if msg.notification.badge ≠ "" then (goAtoi msg.notification.badge).getD 0 else 0) := by
  unfold convertToV1Message safeString
  rw [hd]
  simp only [ha]
  have hcount : ∀ o : Option Int,
      (match o with | some n => n | Option.none => 0) = o.getD 0 := by
    intro o; cases o <;> rfl
  simp [hne, hcount]

/-- A message carrying a non-empty `alert` data field, a notification
title of its own, and a numeric badge. -/
def alertMsg : FcmMsg :=
  { data := GoData.jsonMap [("alert", Jv.str "Hello")]
    notification := { title := "T", body := "B", badge := "2", icon := "ic" } }

/-- Witness for the amended C9: the non-empty alert replaces the title in
both notification objects, the body and icon pass through, and the badge
string parses to the notification count. -/
theorem c9_witness :
    alertMsg.data = GoData.jsonMap [("alert", Jv.str "Hello")] ∧
    lookupKey "alert" [("alert", Jv.str "Hello")] = some (Jv.str "Hello") ∧
    ("Hello" : String) ≠ "" ∧
    (convertToV1Message alertMsg).notifTitle = "Hello" ∧
    (convertToV1Message alertMsg).androidNotification.title = "Hello" ∧
    (convertToV1Message alertMsg).notifBody = "B" ∧
    (convertToV1Message alertMsg).androidNotification.icon = "ic" ∧
    (convertToV1Message alertMsg).androidNotification.notificationCount = 2 := by
  have h := c9_amended_alert_override alertMsg [("alert", Jv.str "Hello")] "Hello"
    rfl rfl (by decide)
  refine ⟨rfl, rfl, by decide, h.1, h.2.1, ?_, ?_, ?_⟩
  · rw [h.2.2.1]; decide
  · rw [h.2.2.2.2.1]; decide
  · rw [h.2.2.2.2.2.2.2.2.2.2.2.2.2.2]; decide

/-- C10: a message whose dynamic data field is not a
`map[string]interface{}` — nil, a typed `map[string]string` as stored by
`NewFcmTopicMsg`, a slice, anything else — is silently translated as an
empty payload: both `message.data` and `message.android.data` hold
exactly the reserved entry `("data", "\x7b\x7d")` and no error is
reported. -/
theorem c10_non_map_data_empty (msg : FcmMsg) (h : msg.data.isJsonMap = false) :
    (convertToV1Message msg).data = [("data", "\x7b\x7d")]
    ∧ (convertToV1Message msg).androidData = [("data", "\x7b\x7d")] := by
  unfold convertToV1Message
  cases hd : msg.data with
  | jsonMap kvs => rw [hd] at h; simp [GoData.isJsonMap] at h
  | nilData => exact ⟨rfl, rfl⟩
  | strMap kvs => exact ⟨rfl, rfl⟩
  | otherData => exact ⟨rfl, rfl⟩

/-- Witness for C10 on a `NewFcmTopicMsg`-built message, whose typed
string map payload is dropped in the versioned translation. -/
theorem c10_witness :
    (NewFcmTopicMsg emptyMsg "news" [("k", "v")]).data.isJsonMap = false ∧
    (convertToV1Message (NewFcmTopicMsg emptyMsg "news" [("k", "v")])).data =
      [("data", "\x7b\x7d")] ∧
    (convertToV1Message (NewFcmTopicMsg emptyMsg "news" [("k", "v")])).androidData =
      [("data", "\x7b\x7d")] :=
  ⟨rfl,
   (c10_non_map_data_empty (NewFcmTopicMsg emptyMsg "news" [("k", "v")]) rfl).1,
   (c10_non_map_data_empty (NewFcmTopicMsg emptyMsg "news" [("k", "v")]) rfl).2⟩
